import Mathlib

/-!
Verification of the DataLink graph compiler and its frontend rendering
logic.  The repository compiles YAML-declared entities and relationships
into four derived JSON artifacts (network.json, entities-meta.json,
relationships.json, entities/{id}.json) consumed by a static site.  The
build-time compiler (core_datalink.py / generate_pages.py) is not part of
the checked-in sources here, so it is modelled from the specification;
the frontend JavaScript (entity.js, the gallery/lightbox module) is
embedded directly from the source.
-/

set_option autoImplicit false

namespace DataLink

/-- Scalar YAML/JSON value appearing in entity `properties`. -/
inductive Scalar where
  | str (s : String)
  | num (n : Int)
  | boolean (b : Bool)
deriving DecidableEq, Repr

/-- Property value: scalar or list of scalars (spec section 3). -/
inductive PropValue where
  | scalar (v : Scalar)
  | list (vs : List Scalar)
deriving DecidableEq, Repr

/-- External link entry: ordered list element of shape (name, url). -/
structure ExternalLink where
  name : String
  url : String
deriving DecidableEq, Repr

/-- An `image_links` element: either a bare URL string or an object with
a `url` field and optional `alt`, `source`, `description` fields.  This
is the dynamic value domain the JavaScript renderers receive. -/
inductive ImageLink where
  | url (u : String)
  | obj (url : String) (alt : Option String) (source : Option String) (description : Option String)
deriving DecidableEq, Repr

/-- A `local_images` element (filename, path, alt, optional description). -/
structure LocalImage where
  filename : String
  path : String
  alt : String
  description : Option String
deriving DecidableEq, Repr

/-- A validated entity record, all fields of spec section 3; optional
fields are `Option` so their absence is representable. -/
structure Entity where
  id : String
  type : String
  name : String
  description : Option String
  properties : Option (List (String × PropValue))
  external_links : Option (List ExternalLink)
  image_links : Option (List ImageLink)
  local_images : Option (List LocalImage)
deriving DecidableEq, Repr

/-- A validated relationship record (`from`, `to`, `type`, optional
`properties`). -/
structure Relationship where
  «from» : String
  «to» : String
  type : String
  properties : Option (List (String × PropValue))
deriving DecidableEq, Repr

/-- A raw (unvalidated) entity record as read from a source document:
even the required fields may be missing. -/
structure RawEntity where
  id : Option String
  type : Option String
  name : Option String
  description : Option String
  properties : Option (List (String × PropValue))
  external_links : Option (List ExternalLink)
  image_links : Option (List ImageLink)
  local_images : Option (List LocalImage)
deriving DecidableEq, Repr

/-- A raw (unvalidated) relationship record as read from a source document. -/
structure RawRelationship where
  «from» : Option String
  «to» : Option String
  type : Option String
  properties : Option (List (String × PropValue))
deriving DecidableEq, Repr

/-- One source document: zero-or-more entities and zero-or-more
relationships (spec section 4.1, load-and-merge input). -/
structure SourceDoc where
  entities : List RawEntity
  relationships : List RawRelationship
deriving DecidableEq, Repr

/-- Build-time error taxonomy (spec section 7): schema errors report the
document and record index plus the missing field; referential errors
report the relationship index, which endpoint dangles, and the missing
id.  There is no duplicate-id error: per spec section 9 the observed
behavior has no rejection logic for duplicates. -/
inductive CompileError where
  | missingEntityField (docIdx : Nat) (recIdx : Nat) (field : String)
  | missingRelationshipField (docIdx : Nat) (recIdx : Nat) (field : String)
  | danglingReference (relIdx : Nat) (endpoint : String) (missingId : String)
deriving DecidableEq, Repr

/-- Generic ordered association-list lookup (first match wins), used for
the merged entity mapping and the entities-meta mapping. -/
def assocFind {α : Type} : List (String × α) → String → Option α
  | [], _ => none
  | (k, v) :: rest, key => if k = key then some v else assocFind rest key

/-- Ordered association-list update with Python-dict semantics: an
existing key keeps its position and receives the new value, a new key is
appended at the end. -/
def assocUpdate {α : Type} : List (String × α) → String → α → List (String × α)
  | [], k, v => [(k, v)]
  | (k', v') :: rest, k, v =>
      if k' = k then (k', v) :: rest else (k', v') :: assocUpdate rest k v

/-- Modelled from the spec: the compiler sources (core_datalink.py /
generate_pages.py) are not under src/.  Schema validation of one entity
record (spec section 7: a record missing a required field, `id`, `name`
or `type`, aborts the build reporting file and record index). -/
def validateEntity (docIdx recIdx : Nat) (r : RawEntity) : Except CompileError Entity :=
  match r.id with
  | none => .error (.missingEntityField docIdx recIdx "id")
  | some i =>
    match r.name with
    | none => .error (.missingEntityField docIdx recIdx "name")
    | some n =>
      match r.type with
      | none => .error (.missingEntityField docIdx recIdx "type")
      | some t =>
        .ok { id := i, type := t, name := n, description := r.description,
              properties := r.properties, external_links := r.external_links,
              image_links := r.image_links, local_images := r.local_images }

/-- Modelled from the spec: schema validation of one relationship record
(required fields `from`, `to`, `type`; spec section 7). -/
def validateRelationship (docIdx recIdx : Nat) (r : RawRelationship) : Except CompileError Relationship :=
  match r.«from» with
  | none => .error (.missingRelationshipField docIdx recIdx "from")
  | some f =>
    match r.«to» with
    | none => .error (.missingRelationshipField docIdx recIdx "to")
    | some t =>
      match r.type with
      | none => .error (.missingRelationshipField docIdx recIdx "type")
      | some ty =>
        .ok { «from» := f, «to» := t, type := ty, properties := r.properties }

/-- Modelled from the spec: validate a list of raw entities, numbering
records from `recIdx` within document `docIdx`. -/
def validateEntities (docIdx : Nat) : Nat → List RawEntity → Except CompileError (List Entity)
  | _, [] => .ok []
  | recIdx, r :: rs =>
    match validateEntity docIdx recIdx r with
    | .error e => .error e
    | .ok v =>
      match validateEntities docIdx (recIdx + 1) rs with
      | .error e => .error e
      | .ok vs => .ok (v :: vs)

/-- Modelled from the spec: validate a list of raw relationships. -/
def validateRelationships (docIdx : Nat) : Nat → List RawRelationship → Except CompileError (List Relationship)
  | _, [] => .ok []
  | recIdx, r :: rs =>
    match validateRelationship docIdx recIdx r with
    | .error e => .error e
    | .ok v =>
      match validateRelationships docIdx (recIdx + 1) rs with
      | .error e => .error e
      | .ok vs => .ok (v :: vs)

/-- Modelled from the spec: validate every source document in order,
concatenating all entities and all relationships (spec section 4.1,
load-and-merge input handling). -/
def validateDocs : Nat → List SourceDoc → Except CompileError (List Entity × List Relationship)
  | _, [] => .ok ([], [])
  | docIdx, d :: ds =>
    match validateEntities docIdx 0 d.entities with
    | .error e => .error e
    | .ok es =>
      match validateRelationships docIdx 0 d.relationships with
      | .error e => .error e
      | .ok rs =>
        match validateDocs (docIdx + 1) ds with
        | .error e => .error e
        | .ok (es', rs') => .ok (es ++ es', rs ++ rs')

/-- Modelled from the spec: concatenate all entities into one mapping
keyed by `id` (spec section 4.1).  Per spec section 9 the observed
behavior has no rejection logic for duplicate ids, so the mapping has
Python-dict semantics: a later entity with the same id silently
overwrites the earlier one (last-write-wins). -/
def mergeEntities (es : List Entity) : List (String × Entity) :=
  es.foldl (fun m e => assocUpdate m e.id e) []

/-- Modelled from the spec: referential-integrity check (spec sections
4.1 and 7): a relationship whose `from` or `to` id does not resolve in
the merged entity mapping aborts the build with an error naming the
relationship index, the dangling endpoint and the missing id. -/
def checkRelationships (m : List (String × Entity)) : Nat → List Relationship → Except CompileError Unit
  | _, [] => .ok ()
  | relIdx, r :: rs =>
    if (assocFind m r.«from»).isNone then
      .error (.danglingReference relIdx "from" r.«from»)
    else if (assocFind m r.«to»).isNone then
      .error (.danglingReference relIdx "to" r.«to»)
    else
      checkRelationships m (relIdx + 1) rs

/-- Network node, shaped as in the technical documentation (id, label,
hover title, type-derived color, shape, size, type). -/
structure Node where
  id : String
  label : String
  title : String
  color : String
  shape : String
  size : Nat
  type : String
deriving DecidableEq, Repr

/-- Network edge, shaped as in the technical documentation (from, to,
relationship label, color, arrow style). -/
structure Edge where
  «from» : String
  «to» : String
  label : String
  color : String
  arrows : String
deriving DecidableEq, Repr

/-- Network payload: a node list and an edge list. -/
structure Network where
  nodes : List Node
  edges : List Edge
deriving DecidableEq, Repr

/-- Modelled from the spec: the type-derived style hint for a node (the
concrete palette of generate_pages.py is unknown; only that it is a
deterministic function of the entity type matters here). -/
def typeColor (t : String) : String :=
  "color-for-" ++ t

/-- Modelled from the spec: one node per entity (id, display label,
type-derived style hint, hover text; spec section 4, project-network-view). -/
def nodeOfEntity (e : Entity) : Node :=
  { id := e.id, label := e.name, title := e.name ++ " (" ++ e.type ++ ")",
    color := typeColor e.type, shape := "dot", size := 25, type := e.type }

/-- Edge color constant from the technical documentation sample. -/
def edgeColor : String := "hsla(328, 78%, 64%, 1)"

/-- Modelled from the spec: one edge per relationship (from, to, label,
style hint; spec section 4, project-network-view). -/
def edgeOfRelationship (r : Relationship) : Edge :=
  { «from» := r.«from», «to» := r.«to», label := r.type, color := edgeColor, arrows := "to" }

/-- Modelled from the spec: the network projection (spec section 4,
project-network-view). -/
def projectNetwork (merged : List (String × Entity)) (rels : List Relationship) : Network :=
  { nodes := merged.map (fun p => nodeOfEntity p.2),
    edges := rels.map edgeOfRelationship }

/-- Lightweight entity projection: id, name, type only (spec section 4,
project-entities-meta). -/
structure EntityMeta where
  id : String
  name : String
  type : String
deriving DecidableEq, Repr

/-- Modelled from the spec: the entities-meta projection, keyed by
entity id, metadata only (spec section 4, project-entities-meta). -/
def projectEntitiesMeta (merged : List (String × Entity)) : List (String × EntityMeta) :=
  merged.map (fun p => (p.1, { id := p.2.id, name := p.2.name, type := p.2.type }))

/-- JSON value tree, the shape of every derived artifact. -/
inductive Json where
  | str (s : String)
  | num (n : Int)
  | boolean (b : Bool)
  | arr (xs : List Json)
  | obj (fields : List (String × Json))
deriving Repr

/-- Field lookup in a JSON object (first match wins). -/
def lookupField : List (String × Json) → String → Option Json
  | [], _ => none
  | (k, v) :: rest, key => if k = key then some v else lookupField rest key

/-- Emit an optional plain-string field: absent options produce no field
at all, matching the optional-field absence of the YAML source. -/
def optStrField (k : String) : Option String → List (String × Json)
  | none => []
  | some s => [(k, Json.str s)]

/-- Emit an optional structured field through an encoder. -/
def optJsonField {α : Type} (k : String) (enc : α → Json) : Option α → List (String × Json)
  | none => []
  | some x => [(k, enc x)]

/-- Encode a scalar. -/
def serializeScalar : Scalar → Json
  | .str s => .str s
  | .num n => .num n
  | .boolean b => .boolean b

/-- Encode a property value (scalar or list of scalars). -/
def serializePropValue : PropValue → Json
  | .scalar v => serializeScalar v
  | .list vs => .arr (vs.map serializeScalar)

/-- Encode a properties mapping. -/
def serializeProps (ps : List (String × PropValue)) : Json :=
  .obj (ps.map (fun p => (p.1, serializePropValue p.2)))

/-- Encode an external link. -/
def serializeExternalLink (l : ExternalLink) : Json :=
  .obj [("name", .str l.name), ("url", .str l.url)]

/-- Encode an image link, preserving both accepted source forms: a bare
string stays a JSON string, an object form keeps only its present fields. -/
def serializeImageLink : ImageLink → Json
  | .url u => .str u
  | .obj u a s d =>
      .obj (("url", Json.str u) :: (optStrField "alt" a ++ optStrField "source" s ++ optStrField "description" d))

/-- Encode a local image record. -/
def serializeLocalImage (l : LocalImage) : Json :=
  .obj (("filename", Json.str l.filename) :: ("path", Json.str l.path) :: ("alt", Json.str l.alt) ::
        optStrField "description" l.description)

/-- Modelled from the spec: the per-entity document written to
entities/{id}.json is the complete entity record, with optional fields
absent when they were absent in the source (spec section 4,
project-entity-document, and section 8 round-trip property). -/
def serializeEntity (e : Entity) : Json :=
  .obj (("id", Json.str e.id) :: ("type", Json.str e.type) :: ("name", Json.str e.name) ::
        (optStrField "description" e.description ++
         optJsonField "properties" serializeProps e.properties ++
         optJsonField "external_links" (fun ls => Json.arr (ls.map serializeExternalLink)) e.external_links ++
         optJsonField "image_links" (fun ls => Json.arr (ls.map serializeImageLink)) e.image_links ++
         optJsonField "local_images" (fun ls => Json.arr (ls.map serializeLocalImage)) e.local_images))

/-- Decode a scalar. -/
def deserializeScalar : Json → Option Scalar
  | .str s => some (.str s)
  | .num n => some (.num n)
  | .boolean b => some (.boolean b)
  | _ => none

/-- Decode each list element or fail. -/
def optionMapList {α β : Type} (f : α → Option β) : List α → Option (List β)
  | [] => some []
  | x :: xs =>
    match f x, optionMapList f xs with
    | some y, some ys => some (y :: ys)
    | _, _ => none

/-- Decode a property value: arrays become scalar lists, anything else a scalar. -/
def deserializePropValue : Json → Option PropValue
  | .arr xs => (optionMapList deserializeScalar xs).map PropValue.list
  | j => (deserializeScalar j).map PropValue.scalar

/-- Decode a properties mapping. -/
def deserializeProps : Json → Option (List (String × PropValue))
  | .obj fs => optionMapList (fun p => (deserializePropValue p.2).map (fun v => (p.1, v))) fs
  | _ => none

/-- Read an optional plain-string field: absence decodes to `none`. -/
def getOptString (fs : List (String × Json)) (k : String) : Option (Option String) :=
  match lookupField fs k with
  | none => some none
  | some (.str s) => some (some s)
  | some _ => none

/-- Read an optional structured field through a decoder: absence decodes
to `none`. -/
def getOptField {α : Type} (fs : List (String × Json)) (k : String) (dec : Json → Option α) : Option (Option α) :=
  match lookupField fs k with
  | none => some none
  | some j => (dec j).map some

/-- Decode an external link. -/
def deserializeExternalLink : Json → Option ExternalLink
  | .obj fs =>
    match lookupField fs "name", lookupField fs "url" with
    | some (.str n), some (.str u) => some { name := n, url := u }
    | _, _ => none
  | _ => none

/-- Decode an image link in either accepted form. -/
def deserializeImageLink : Json → Option ImageLink
  | .str s => some (.url s)
  | .obj fs =>
    match lookupField fs "url" with
    | some (.str u) =>
      match getOptString fs "alt", getOptString fs "source", getOptString fs "description" with
      | some a, some s, some d => some (.obj u a s d)
      | _, _, _ => none
    | _ => none
  | _ => none

/-- Decode a local image record. -/
def deserializeLocalImage : Json → Option LocalImage
  | .obj fs =>
    match lookupField fs "filename", lookupField fs "path", lookupField fs "alt" with
    | some (.str f), some (.str p), some (.str a) =>
      match getOptString fs "description" with
      | some d => some { filename := f, path := p, alt := a, description := d }
      | none => none
    | _, _, _ => none
  | _ => none

/-- Decode a full entity document back into a record; a missing optional
field decodes to its absence. -/
def deserializeEntity : Json → Option Entity
  | .obj fs =>
    match lookupField fs "id", lookupField fs "type", lookupField fs "name" with
    | some (.str i), some (.str t), some (.str n) =>
      match getOptString fs "description",
            getOptField fs "properties" deserializeProps,
            getOptField fs "external_links" (fun j => match j with
              | .arr xs => optionMapList deserializeExternalLink xs
              | _ => none),
            getOptField fs "image_links" (fun j => match j with
              | .arr xs => optionMapList deserializeImageLink xs
              | _ => none),
            getOptField fs "local_images" (fun j => match j with
              | .arr xs => optionMapList deserializeLocalImage xs
              | _ => none) with
      | some d, some ps, some el, some il, some li =>
          some { id := i, type := t, name := n, description := d, properties := ps,
                 external_links := el, image_links := il, local_images := li }
      | _, _, _, _, _ => none
    | _, _, _ => none
  | _ => none

mutual

/-- Deterministic textual rendering of a JSON value; byte-identical
artifacts are equal rendered strings. -/
def renderJson : Json → String
  | .str s => "\"" ++ s ++ "\""
  | .num n => toString n
  | .boolean true => "true"
  | .boolean false => "false"
  | .arr xs => "[" ++ renderJsonList xs ++ "]"
  | .obj fs => "\x7b" ++ renderJsonFields fs ++ "\x7d"

/-- Render array elements, comma separated. -/
def renderJsonList : List Json → String
  | [] => ""
  | [x] => renderJson x
  | x :: y :: xs => renderJson x ++ "," ++ renderJsonList (y :: xs)

/-- Render object fields, comma separated. -/
def renderJsonFields : List (String × Json) → String
  | [] => ""
  | [(k, v)] => "\"" ++ k ++ "\":" ++ renderJson v
  | (k, v) :: f :: fs => "\"" ++ k ++ "\":" ++ renderJson v ++ "," ++ renderJsonFields (f :: fs)

end

/-- Encode a network node as in the technical documentation. -/
def nodeToJson (n : Node) : Json :=
  .obj [("id", .str n.id), ("label", .str n.label), ("title", .str n.title),
        ("color", .str n.color), ("shape", .str n.shape), ("size", .num (n.size : Int)),
        ("type", .str n.type)]

/-- Encode a network edge as in the technical documentation. -/
def edgeToJson (e : Edge) : Json :=
  .obj [("from", .str e.«from»), ("to", .str e.«to»), ("label", .str e.label),
        ("color", .str e.color), ("arrows", .str e.arrows)]

/-- Encode the network payload: nodes plus edges (spec section 6). -/
def networkToJson (net : Network) : Json :=
  .obj [("nodes", .arr (net.nodes.map nodeToJson)), ("edges", .arr (net.edges.map edgeToJson))]

/-- Encode one entities-meta entry: exactly the fields id, name, type. -/
def metaEntryToJson (m : EntityMeta) : Json :=
  .obj [("id", .str m.id), ("name", .str m.name), ("type", .str m.type)]

/-- Encode the entities-meta mapping, keyed by entity id (spec section 6). -/
def metaToJson (meta : List (String × EntityMeta)) : Json :=
  .obj (meta.map (fun p => (p.1, metaEntryToJson p.2)))

/-- Encode one relationship verbatim (spec section 6). -/
def relationshipToJson (r : Relationship) : Json :=
  .obj (("from", Json.str r.«from») :: ("to", Json.str r.«to») :: ("type", Json.str r.type) ::
        optJsonField "properties" serializeProps r.properties)

/-- Encode the relationship index verbatim (spec section 4,
project-relationships-index). -/
def relationshipsToJson (rels : List Relationship) : Json :=
  .arr (rels.map relationshipToJson)

/-- The four derived artifacts of a successful build (spec section 6). -/
structure Artifacts where
  network : Network
  entitiesMeta : List (String × EntityMeta)
  relationships : List Relationship
  entityDocs : List (String × Json)

/-- Modelled from the spec: assemble the artifact set from the merged
graph (spec section 4: the four projection operations). -/
def buildArtifacts (merged : List (String × Entity)) (rels : List Relationship) : Artifacts :=
  { network := projectNetwork merged rels,
    entitiesMeta := projectEntitiesMeta merged,
    relationships := rels,
    entityDocs := merged.map (fun p => (p.1, serializeEntity p.2)) }

/-- Modelled from the spec: the whole compiler run (spec sections 4 and
7): validate every record, merge, check referential integrity, then
project the four artifacts; the first detected inconsistency aborts with
its error and nothing is produced. -/
def compile (docs : List SourceDoc) : Except CompileError Artifacts :=
  match validateDocs 0 docs with
  | .error e => .error e
  | .ok (es, rels) =>
    let merged := mergeEntities es
    match checkRelationships merged 0 rels with
    | .error e => .error e
    | .ok _ => .ok (buildArtifacts merged rels)

/-- Render the artifact set to its files: network.json,
entities-meta.json, relationships.json and one entities/{id}.json per
entity, each as (path, byte content). -/
def renderedArtifacts (a : Artifacts) : List (String × String) :=
  ("network.json", renderJson (networkToJson a.network)) ::
  ("entities-meta.json", renderJson (metaToJson a.entitiesMeta)) ::
  ("relationships.json", renderJson (relationshipsToJson a.relationships)) ::
  a.entityDocs.map (fun p => ("entities/" ++ p.1 ++ ".json", renderJson p.2))

/-- Modelled from the spec: atomic publication (spec section 7) — a
failed run writes no file at all, a successful run writes the full
artifact set. -/
def writtenFiles : Except CompileError Artifacts → List (String × String)
  | .error _ => []
  | .ok a => renderedArtifacts a

/-- True when the run produced artifacts. -/
def compileSucceeds (docs : List SourceDoc) : Bool :=
  match compile docs with
  | .ok _ => true
  | .error _ => false

/-- The raw entity ids of an input, in order, for stating duplicate-id
scenarios. -/
def rawEntityIds (docs : List SourceDoc) : List (Option String) :=
  (docs.flatMap (fun d => d.entities)).map (fun r => r.id)

/-- JavaScript truthy-or-default on an optional string: `x || d` treats
both an absent value and the empty string as falsy. -/
def orDefault (o : Option String) (d : String) : String :=
  match o with
  | none => d
  | some s => if s = "" then d else s

/-- A gallery image as built by the renderImageGallery of the documented
entity-page handler (src/unnamed/part_002, lines 462-540): src is a
plain URL string. -/
structure GalleryImage where
  src : String
  type : String
  alt : String
  source : String
  description : String
deriving DecidableEq, Repr

/-- The external-image collection loop of renderImageGallery in
src/unnamed/part_002 (lines 466-489): a bare string is pushed with the
string as src; an object is pushed only when its url is truthy
(nonempty), with the url as src and truthy-or-default alt, source and
description. -/
def collectExternalImages (entityName : String) : List ImageLink → List GalleryImage
  | [] => []
  | .url u :: rest =>
      { src := u, type := "external", alt := entityName ++ " image",
        source := "Unknown", description := "" } :: collectExternalImages entityName rest
  | .obj u a s d :: rest =>
      if u = "" then collectExternalImages entityName rest
      else
        { src := u, type := "external", alt := orDefault a (entityName ++ " image"),
          source := orDefault s "Unknown", description := orDefault d "" } ::
        collectExternalImages entityName rest

/-- A gallery image as built by renderImageGallery in
src/docs/javascripts/entity.js (lines 108-137): the image_links element
is stored in src unchanged, whatever its form. -/
structure GalleryImageDyn where
  src : ImageLink
  type : String
  alt : String
deriving DecidableEq, Repr

/-- The external-image collection loop of renderImageGallery in
src/docs/javascripts/entity.js (lines 113-121): every element of
image_links is pushed as-is into src, with a name-derived alt. -/
def collectExternalImagesLegacy (entityName : String) (links : List ImageLink) : List GalleryImageDyn :=
  links.map (fun item => { src := item, type := "external", alt := entityName ++ " image" })

/-- The url a gallery element designates: a bare string is itself the
url, the object form designates its url field. -/
def imageLinkUrl : ImageLink → String
  | .url u => u
  | .obj u _ _ _ => u

/-- A lightbox image entry (src and alt), as collected by
ImageGallery.updateImages in src/unnamed/part_002. -/
structure LightboxImage where
  src : String
  alt : String
deriving DecidableEq, Repr

/-- The lightbox state of the ImageGallery class in src/unnamed/part_002:
the current index and the collected image list. -/
structure LightboxState where
  currentImageIndex : Nat
  images : List LightboxImage
deriving DecidableEq, Repr

/-- ImageGallery.previousImage (src/unnamed/part_002, lines 257-262):
decrement only when the index is positive. -/
def previousImage (st : LightboxState) : LightboxState :=
  if 0 < st.currentImageIndex then
    { st with currentImageIndex := st.currentImageIndex - 1 }
  else st

/-- ImageGallery.nextImage (src/unnamed/part_002, lines 264-269):
increment only when the index is below images.length - 1. -/
def nextImage (st : LightboxState) : LightboxState :=
  if st.currentImageIndex < st.images.length - 1 then
    { st with currentImageIndex := st.currentImageIndex + 1 }
  else st

/-- ImageGallery.updateLightboxImage (src/unnamed/part_002, lines
271-297): with a nonempty image list it displays
images[currentImageIndex] and sets the two button-disabled flags;
with an empty list it returns early. -/
def updateLightboxImage (st : LightboxState) : Option (LightboxImage × Bool × Bool) :=
  if st.images.length = 0 then none
  else
    (st.images.get? st.currentImageIndex).map
      (fun img => (img, st.currentImageIndex == 0, st.currentImageIndex == st.images.length - 1))

/-- A previous/next navigation step in the lightbox. -/
inductive NavOp where
  | prev
  | next
deriving DecidableEq, Repr

/-- Apply one navigation step. -/
def applyNav (op : NavOp) (st : LightboxState) : LightboxState :=
  match op with
  | .prev => previousImage st
  | .next => nextImage st

/-- Apply a sequence of navigation steps. -/
def applyNavs (ops : List NavOp) (st : LightboxState) : LightboxState :=
  ops.foldl (fun s op => applyNav op s) st

/-- getEntityIdFromHash (src/docs/javascripts/entity.js, lines 8-10):
drop the leading # of the location hash. -/
def getEntityIdFromHash (hash : String) : String :=
  hash.drop 1

/-- The visible state of the entity page after loadAndDisplayEntity:
whether the loading indicator is hidden, which of the error and content
views shows, and the document title when one was set. -/
structure ViewState where
  loadingHidden : Bool
  errorVisible : Bool
  contentVisible : Bool
  title : Option String
deriving DecidableEq, Repr

/-- showError (src/docs/javascripts/entity.js, lines 204-208): hide
loading, hide content, show the error view. -/
def showErrorState : ViewState :=
  { loadingHidden := true, errorVisible := true, contentVisible := false, title := none }

/-- showContent plus the title assignment that follows it
(src/docs/javascripts/entity.js, lines 211-215 and 248): hide loading,
hide the error view, show content, set the document title. -/
def showContentState (t : String) : ViewState :=
  { loadingHidden := true, errorVisible := false, contentVisible := true, title := some t }

/-- loadAndDisplayEntity (src/docs/javascripts/entity.js, lines
218-254), with the two fetches modelled as inputs: `shared` is the
outcome of loadSharedData (metadata mapping and relationship list, or a
failure) and `fetchEntity` the outcome of loadEntityData per id.  An
empty id, a failed shared fetch, an id missing from the metadata, or a
failed entity fetch leads to showError; otherwise the entity renders,
content shows and the title becomes name - DataLink. -/
def loadAndDisplayEntity (hash : String)
    (shared : Option (List (String × EntityMeta) × List Relationship))
    (fetchEntity : String → Option Entity) : ViewState :=
  let entityId := getEntityIdFromHash hash
  if entityId = "" then showErrorState
  else
    match shared with
    | none => showErrorState
    | some (meta, _) =>
      if (assocFind meta entityId).isNone then showErrorState
      else
        match fetchEntity entityId with
        | none => showErrorState
        | some entity => showContentState (entity.name ++ " - DataLink")

/-- The error condition as the claim states it: the hash id is empty, a
data fetch fails, or the id is not a key of the loaded metadata. -/
def specErrorCondition (hash : String)
    (shared : Option (List (String × EntityMeta) × List Relationship))
    (fetchEntity : String → Option Entity) : Bool :=
  match shared with
  | none => true
  | some (meta, _) =>
    let entityId := getEntityIdFromHash hash
    entityId == "" || (assocFind meta entityId).isNone || (fetchEntity entityId).isNone

/-- True when some record of the input is missing one of its required
fields (spec section 7 schema-error condition). -/
def hasMissingField (docs : List SourceDoc) : Bool :=
  docs.any (fun d =>
    d.entities.any (fun r => r.id.isNone || r.name.isNone || r.type.isNone) ||
    d.relationships.any (fun r => r.«from».isNone || r.«to».isNone || r.type.isNone))

/-- True when the part_002 renderImageGallery guard keeps the element: a
bare string always, an object only with a truthy (nonempty) url. -/
def imageLinkAccepted : ImageLink → Bool
  | .url _ => true
  | .obj u _ _ _ => u != ""

/-- A raw entity with just the required fields. -/
def rawEntity (i n t : String) : RawEntity :=
  { id := some i, type := some t, name := some n, description := none,
    properties := none, external_links := none, image_links := none, local_images := none }

/-- A raw relationship with just the required fields. -/
def rawRel (f t ty : String) : RawRelationship :=
  { «from» := some f, «to» := some t, type := some ty, properties := none }

/-- The spec section 8 demo scenario: entities a and b, one knows
relationship between them. -/
def demoDocs : List SourceDoc :=
  [{ entities := [rawEntity "a" "A" "person", rawEntity "b" "B" "person"],
     relationships := [rawRel "a" "b" "knows"] }]

/-- The validated form of demo entity a. -/
def entityA : Entity :=
  { id := "a", type := "person", name := "A", description := none,
    properties := none, external_links := none, image_links := none, local_images := none }

/-- The validated form of demo entity b. -/
def entityB : Entity :=
  { id := "b", type := "person", name := "B", description := none,
    properties := none, external_links := none, image_links := none, local_images := none }

/-- The validated form of the demo relationship. -/
def relKnows : Relationship :=
  { «from» := "a", «to» := "b", type := "knows", properties := none }

/-- The spec section 8 duplicate-id scenario: two source files each
declare an entity with id a. -/
def dupDocs : List SourceDoc :=
  [{ entities := [rawEntity "a" "A1" "person"], relationships := [] },
   { entities := [rawEntity "a" "A2" "person"], relationships := [] }]

/-- A single document declaring the id x twice. -/
def dupDocsOne : List SourceDoc :=
  [{ entities := [rawEntity "x" "X1" "thing", rawEntity "x" "X2" "thing"],
     relationships := [] }]

/-- The spec section 8 dangling-reference scenario: a relationship
references id c, which does not exist. -/
def badRefDocs : List SourceDoc :=
  [{ entities := [rawEntity "a" "A" "person"],
     relationships := [rawRel "a" "c" "knows"] }]

/-- An input whose first entity record is missing its required name. -/
def schemaErrDocs : List SourceDoc :=
  [{ entities := [{ id := some "a", type := some "person", name := none, description := none,
                    properties := none, external_links := none, image_links := none,
                    local_images := none }],
     relationships := [] }]

/-- The artifacts of a successful run, with a dummy fallback for failed
runs; used to name a concrete artifact set in witnesses. -/
def artifactsOf (docs : List SourceDoc) : Artifacts :=
  match compile docs with
  | .ok a => a
  | .error _ => buildArtifacts [] []

/-! ## Helper lemmas -/

theorem projectEntitiesMeta_cons (p : String × Entity) (rest : List (String × Entity)) :
    projectEntitiesMeta (p :: rest) =
      (p.1, { id := p.2.id, name := p.2.name, type := p.2.type }) :: projectEntitiesMeta rest := rfl

theorem assocFind_projectEntitiesMeta (m : List (String × Entity)) (k : String) :
    assocFind (projectEntitiesMeta m) k =
      (assocFind m k).map (fun e => ({ id := e.id, name := e.name, type := e.type } : EntityMeta)) := by
  induction m with
  | nil => rfl
  | cons p rest ih =>
    obtain ⟨k', v⟩ := p
    by_cases hk : k' = k
    · simp [projectEntitiesMeta_cons, assocFind, hk]
    · simp only [projectEntitiesMeta_cons, assocFind, hk, if_false, ite_false]
      exact ih

theorem checkRelationships_ok_resolves (m : List (String × Entity)) :
    ∀ (rs : List Relationship) (i : Nat), checkRelationships m i rs = .ok () →
      ∀ r ∈ rs, (assocFind m r.«from»).isSome = true ∧ (assocFind m r.«to»).isSome = true := by
  intro rs
  induction rs with
  | nil => simp
  | cons r rest ih =>
    intro i h r' hr'
    by_cases h1 : (assocFind m r.«from»).isNone
    · simp [checkRelationships, h1] at h
    · by_cases h2 : (assocFind m r.«to»).isNone
      · simp [checkRelationships, h1, h2] at h
      · have hrec : checkRelationships m (i + 1) rest = .ok () := by
          simpa [checkRelationships, h1, h2] using h
        rcases List.mem_cons.mp hr' with hr' | hr'
        · subst hr'
          constructor
          · simpa [Option.isNone_iff_eq_none, Option.isSome_iff_exists,
                   Option.eq_none_iff_forall_not_mem] using h1
          · simpa [Option.isNone_iff_eq_none, Option.isSome_iff_exists,
                   Option.eq_none_iff_forall_not_mem] using h2
        · exact ih (i + 1) hrec r' hr'

theorem checkRelationships_error_spec (m : List (String × Entity)) :
    ∀ (rs : List Relationship) (i : Nat) (e : CompileError), checkRelationships m i rs = .error e →
      ∃ j r, rs.get? j = some r ∧
        ((assocFind m r.«from» = none ∧ e = .danglingReference (i + j) "from" r.«from») ∨
         (assocFind m r.«to» = none ∧ e = .danglingReference (i + j) "to" r.«to»)) := by
  intro rs
  induction rs with
  | nil => intro i e h; simp [checkRelationships] at h
  | cons r rest ih =>
    intro i e h
    by_cases h1 : (assocFind m r.«from»).isNone
    · have he : CompileError.danglingReference i "from" r.«from» = e := by
        simpa [checkRelationships, h1] using h
      exact ⟨0, r, rfl, .inl ⟨Option.isNone_iff_eq_none.mp h1, by simpa using he.symm⟩⟩
    · by_cases h2 : (assocFind m r.«to»).isNone
      · have he : CompileError.danglingReference i "to" r.«to» = e := by
          simpa [checkRelationships, h1, h2] using h
        exact ⟨0, r, rfl, .inr ⟨Option.isNone_iff_eq_none.mp h2, by simpa using he.symm⟩⟩
      · have hrec : checkRelationships m (i + 1) rest = .error e := by
          simpa [checkRelationships, h1, h2] using h
        obtain ⟨j, r', hget, hcase⟩ := ih (i + 1) e hrec
        refine ⟨j + 1, r', by simpa using hget, ?_⟩
        have harith : i + 1 + j = i + (j + 1) := by omega
        rcases hcase with ⟨hn, he⟩ | ⟨hn, he⟩
        · exact .inl ⟨hn, by rw [he, harith]⟩
        · exact .inr ⟨hn, by rw [he, harith]⟩

theorem checkRelationships_dangling_error (m : List (String × Entity)) :
    ∀ (rs : List Relationship) (i : Nat),
      (∃ r ∈ rs, assocFind m r.«from» = none ∨ assocFind m r.«to» = none) →
      ∃ e, checkRelationships m i rs = .error e := by
  intro rs
  induction rs with
  | nil => intro i h; simp at h
  | cons r rest ih =>
    intro i h
    by_cases h1 : (assocFind m r.«from»).isNone
    · exact ⟨CompileError.danglingReference i "from" r.«from», by simp [checkRelationships, h1]⟩
    · by_cases h2 : (assocFind m r.«to»).isNone
      · exact ⟨CompileError.danglingReference i "to" r.«to», by simp [checkRelationships, h1, h2]⟩
      · have hne1 : ¬ assocFind m r.«from» = none := by simpa [Option.isNone_iff_eq_none] using h1
        have hne2 : ¬ assocFind m r.«to» = none := by simpa [Option.isNone_iff_eq_none] using h2
        obtain ⟨r', hr', hcase⟩ := h
        rcases List.mem_cons.mp hr' with hr' | hr'
        · subst hr'; rcases hcase with hc | hc
          · exact absurd hc hne1
          · exact absurd hc hne2
        · obtain ⟨e, he⟩ := ih (i + 1) ⟨r', hr', hcase⟩
          exact ⟨e, by simpa [checkRelationships, h1, h2] using he⟩

theorem compile_ok_elim (docs : List SourceDoc) (arts : Artifacts) (h : compile docs = .ok arts) :
    ∃ es rels, validateDocs 0 docs = .ok (es, rels) ∧
      checkRelationships (mergeEntities es) 0 rels = .ok () ∧
      arts = buildArtifacts (mergeEntities es) rels := by
  unfold compile at h
  cases hv : validateDocs 0 docs with
  | error e => rw [hv] at h; simp at h
  | ok p =>
    obtain ⟨es, rels⟩ := p
    rw [hv] at h
    cases hc : checkRelationships (mergeEntities es) 0 rels with
    | error e => simp [hc] at h
    | ok u =>
      cases u
      simp [hc] at h
      exact ⟨es, rels, rfl, hc, h.symm⟩

theorem compile_dangling_error (docs : List SourceDoc) (es : List Entity) (rels : List Relationship)
    (hv : validateDocs 0 docs = .ok (es, rels))
    (hd : ∃ r ∈ rels, assocFind (mergeEntities es) r.«from» = none ∨ assocFind (mergeEntities es) r.«to» = none) :
    ∃ e, compile docs = .error e ∧ checkRelationships (mergeEntities es) 0 rels = .error e := by
  obtain ⟨e, he⟩ := checkRelationships_dangling_error (mergeEntities es) rels 0 hd
  refine ⟨e, ?_, he⟩
  unfold compile
  rw [hv]
  simp [he]

theorem assocUpdate_keys {α : Type} (m : List (String × α)) (k : String) (v : α) :
    (assocUpdate m k v).map Prod.fst =
      if k ∈ m.map Prod.fst then m.map Prod.fst else m.map Prod.fst ++ [k] := by
  induction m with
  | nil => simp [assocUpdate]
  | cons p rest ih =>
    obtain ⟨k', v'⟩ := p
    by_cases hk : k' = k
    · subst hk; simp [assocUpdate]
    · by_cases hm : k ∈ rest.map Prod.fst <;>
        simp [assocUpdate, hk, ih, hm, Ne.symm hk]

theorem assocUpdate_keys_nodup {α : Type} (m : List (String × α)) (k : String) (v : α)
    (h : (m.map Prod.fst).Nodup) : ((assocUpdate m k v).map Prod.fst).Nodup := by
  rw [assocUpdate_keys]
  by_cases hm : k ∈ m.map Prod.fst <;> simp [hm, h, List.Nodup.append, List.nodup_append]

theorem mergeEntities_go_nodup :
    ∀ (es : List Entity) (m : List (String × Entity)), (m.map Prod.fst).Nodup →
      ((es.foldl (fun acc e => assocUpdate acc e.id e) m).map Prod.fst).Nodup := by
  intro es
  induction es with
  | nil => intro m h; simpa using h
  | cons e rest ih =>
    intro m h
    exact ih _ (assocUpdate_keys_nodup m e.id e h)

theorem mergeEntities_keys_nodup (es : List Entity) : ((mergeEntities es).map Prod.fst).Nodup :=
  mergeEntities_go_nodup es [] (by simp)

theorem assocUpdate_key_id (m : List (String × Entity)) (e : Entity)
    (h : ∀ p ∈ m, p.1 = p.2.id) : ∀ p ∈ assocUpdate m e.id e, p.1 = p.2.id := by
  induction m with
  | nil => simp [assocUpdate]
  | cons q rest ih =>
    obtain ⟨k', v'⟩ := q
    intro p hp
    by_cases hk : k' = e.id
    · subst hk
      simp only [assocUpdate, if_pos rfl] at hp
      rcases List.mem_cons.mp hp with hp | hp
      · subst hp; rfl
      · exact h p (List.mem_cons_of_mem _ hp)
    · simp only [assocUpdate, if_neg hk] at hp
      rcases List.mem_cons.mp hp with hp | hp
      · subst hp; exact h _ (List.mem_cons_self _ _)
      · exact ih (fun q hq => h q (List.mem_cons_of_mem _ hq)) p hp

theorem mergeEntities_go_key_id :
    ∀ (es : List Entity) (m : List (String × Entity)), (∀ p ∈ m, p.1 = p.2.id) →
      ∀ p ∈ es.foldl (fun acc e => assocUpdate acc e.id e) m, p.1 = p.2.id := by
  intro es
  induction es with
  | nil => intro m h; simpa using h
  | cons e rest ih =>
    intro m h
    exact ih _ (assocUpdate_key_id m e h)

theorem mergeEntities_key_id (es : List Entity) : ∀ p ∈ mergeEntities es, p.1 = p.2.id :=
  mergeEntities_go_key_id es [] (by simp)

theorem validateEntities_ok_required (d : Nat) :
    ∀ (rs : List RawEntity) (i : Nat) (es : List Entity), validateEntities d i rs = .ok es →
      ∀ r ∈ rs, r.id.isSome = true ∧ r.name.isSome = true ∧ r.type.isSome = true := by
  intro rs
  induction rs with
  | nil => simp
  | cons r rest ih =>
    intro i es h r' hr'
    cases hid : r.id with
    | none => simp [validateEntities, validateEntity, hid] at h
    | some iv =>
      cases hname : r.name with
      | none => simp [validateEntities, validateEntity, hid, hname] at h
      | some nv =>
        cases htype : r.type with
        | none => simp [validateEntities, validateEntity, hid, hname, htype] at h
        | some tv =>
          rcases List.mem_cons.mp hr' with hr' | hr'
          · subst hr'; simp [hid, hname, htype]
          · cases hrec : validateEntities d (i + 1) rest with
            | error e => simp [validateEntities, validateEntity, hid, hname, htype, hrec] at h
            | ok es' => exact ih (i + 1) es' hrec r' hr'

theorem validateRelationships_ok_required (d : Nat) :
    ∀ (rs : List RawRelationship) (i : Nat) (vs : List Relationship), validateRelationships d i rs = .ok vs →
      ∀ r ∈ rs, r.«from».isSome = true ∧ r.«to».isSome = true ∧ r.type.isSome = true := by
  intro rs
  induction rs with
  | nil => simp
  | cons r rest ih =>
    intro i vs h r' hr'
    cases hf : r.«from» with
    | none => simp [validateRelationships, validateRelationship, hf] at h
    | some fv =>
      cases ht : r.«to» with
      | none => simp [validateRelationships, validateRelationship, hf, ht] at h
      | some tv =>
        cases hty : r.type with
        | none => simp [validateRelationships, validateRelationship, hf, ht, hty] at h
        | some tyv =>
          rcases List.mem_cons.mp hr' with hr' | hr'
          · subst hr'; simp [hf, ht, hty]
          · cases hrec : validateRelationships d (i + 1) rest with
            | error e => simp [validateRelationships, validateRelationship, hf, ht, hty, hrec] at h
            | ok vs' => exact ih (i + 1) vs' hrec r' hr'

theorem validateDocs_ok_no_missing :
    ∀ (docs : List SourceDoc) (n : Nat) (es : List Entity) (rels : List Relationship),
      validateDocs n docs = .ok (es, rels) → hasMissingField docs = false := by
  intro docs
  induction docs with
  | nil => simp [hasMissingField]
  | cons d rest ih =>
    intro n es rels h
    cases he : validateEntities n 0 d.entities with
    | error e => simp [validateDocs, he] at h
    | ok es1 =>
      cases hr : validateRelationships n 0 d.relationships with
      | error e => simp [validateDocs, he, hr] at h
      | ok rs1 =>
        cases hrec : validateDocs (n + 1) rest with
        | error e => simp [validateDocs, he, hr, hrec] at h
        | ok p =>
          obtain ⟨es', rs'⟩ := p
          have htail := ih (n + 1) es' rs' hrec
          have hent := validateEntities_ok_required n d.entities 0 es1 he
          have hrel := validateRelationships_ok_required n d.relationships 0 rs1 hr
          simp only [hasMissingField, List.any_cons, List.any_eq_false, Bool.or_eq_false_iff] at htail ⊢
          refine ⟨⟨?_, ?_⟩, htail⟩
          · intro r hr'
            obtain ⟨v1, hv1⟩ := Option.isSome_iff_exists.mp (hent r hr').1
            obtain ⟨v2, hv2⟩ := Option.isSome_iff_exists.mp (hent r hr').2.1
            obtain ⟨v3, hv3⟩ := Option.isSome_iff_exists.mp (hent r hr').2.2
            simp [hv1, hv2, hv3]
          · intro r hr'
            obtain ⟨v1, hv1⟩ := Option.isSome_iff_exists.mp (hrel r hr').1
            obtain ⟨v2, hv2⟩ := Option.isSome_iff_exists.mp (hrel r hr').2.1
            obtain ⟨v3, hv3⟩ := Option.isSome_iff_exists.mp (hrel r hr').2.2
            simp [hv1, hv2, hv3]

@[simp]
theorem deserializeScalar_serializeScalar (v : Scalar) :
    deserializeScalar (serializeScalar v) = some v := by
  cases v <;> rfl

theorem optionMapList_roundtrip {α β : Type} (f : β → Option α) (g : α → β)
    (h : ∀ x, f (g x) = some x) : ∀ l : List α, optionMapList f (l.map g) = some l := by
  intro l
  induction l with
  | nil => rfl
  | cons x xs ih => simp [optionMapList, h, ih]

@[simp]
theorem deserializePropValue_serializePropValue (v : PropValue) :
    deserializePropValue (serializePropValue v) = some v := by
  cases v with
  | scalar s => cases s <;> rfl
  | list vs =>
    simp [serializePropValue, deserializePropValue,
          optionMapList_roundtrip deserializeScalar serializeScalar
            deserializeScalar_serializeScalar]

@[simp]
theorem deserializeProps_serializeProps (ps : List (String × PropValue)) :
    deserializeProps (serializeProps ps) = some ps := by
  simp only [serializeProps, deserializeProps]
  exact optionMapList_roundtrip _ _ (fun p => by cases p with | mk k v => simp) ps

@[simp]
theorem deserializeExternalLink_serializeExternalLink (l : ExternalLink) :
    deserializeExternalLink (serializeExternalLink l) = some l := rfl

@[simp]
theorem optionMapList_externalLinks (ls : List ExternalLink) :
    optionMapList deserializeExternalLink (ls.map serializeExternalLink) = some ls :=
  optionMapList_roundtrip _ _ deserializeExternalLink_serializeExternalLink ls

@[simp]
theorem deserializeImageLink_serializeImageLink (l : ImageLink) :
    deserializeImageLink (serializeImageLink l) = some l := by
  cases l with
  | url u => rfl
  | obj u a s d => cases a <;> cases s <;> cases d <;> rfl

@[simp]
theorem optionMapList_imageLinks (ls : List ImageLink) :
    optionMapList deserializeImageLink (ls.map serializeImageLink) = some ls :=
  optionMapList_roundtrip _ _ deserializeImageLink_serializeImageLink ls

@[simp]
theorem deserializeLocalImage_serializeLocalImage (l : LocalImage) :
    deserializeLocalImage (serializeLocalImage l) = some l := by
  cases l with
  | mk f p a d => cases d <;> rfl

@[simp]
theorem optionMapList_localImages (ls : List LocalImage) :
    optionMapList deserializeLocalImage (ls.map serializeLocalImage) = some ls :=
  optionMapList_roundtrip _ _ deserializeLocalImage_serializeLocalImage ls

theorem deserializeEntity_serializeEntity (e : Entity) :
    deserializeEntity (serializeEntity e) = some e := by
  obtain ⟨i, t, n, d, p, el, il, li⟩ := e
  cases d <;> cases p <;> cases el <;> cases il <;> cases li <;>
    simp [serializeEntity, deserializeEntity, lookupField, getOptString, getOptField,
          optStrField, optJsonField]

theorem assocFind_map_snd {α β : Type} (f : α → β) (m : List (String × α)) (k : String) :
    assocFind (m.map (fun p => (p.1, f p.2))) k = (assocFind m k).map f := by
  induction m with
  | nil => rfl
  | cons p rest ih =>
    obtain ⟨k', v⟩ := p
    by_cases hk : k' = k
    · simp [assocFind, hk]
    · simp only [List.map_cons, assocFind, hk, if_false, ite_false]
      exact ih

theorem assocFind_eq_of_mem_nodup {α : Type} :
    ∀ (m : List (String × α)) (p : String × α), p ∈ m → (m.map Prod.fst).Nodup →
      assocFind m p.1 = some p.2 := by
  intro m
  induction m with
  | nil => simp
  | cons q rest ih =>
    intro p hp hnd
    obtain ⟨k', v'⟩ := q
    rcases List.mem_cons.mp hp with hp | hp
    · subst hp; simp [assocFind]
    · have hk : k' ≠ p.1 := by
        have hnotin : k' ∉ rest.map Prod.fst := by
          simpa using (List.nodup_cons.mp hnd).1
        intro heq
        exact hnotin (heq ▸ List.mem_map.mpr ⟨p, hp, rfl⟩)
      rw [show assocFind ((k', v') :: rest) p.1 = if k' = p.1 then some v' else assocFind rest p.1 from rfl,
          if_neg hk]
      exact ih p hp (List.nodup_cons.mp hnd).2

theorem applyNav_bounds (op : NavOp) (st : LightboxState)
    (h : st.currentImageIndex < st.images.length) :
    (applyNav op st).images = st.images ∧ (applyNav op st).currentImageIndex < st.images.length := by
  cases op with
  | prev =>
    by_cases h0 : 0 < st.currentImageIndex <;> simp [applyNav, previousImage, h0] <;> omega
  | next =>
    by_cases h0 : st.currentImageIndex < st.images.length - 1 <;>
      simp [applyNav, nextImage, h0] <;> omega

theorem applyNavs_bounds (ops : List NavOp) :
    ∀ st : LightboxState, st.currentImageIndex < st.images.length →
      (applyNavs ops st).images = st.images ∧
      (applyNavs ops st).currentImageIndex < st.images.length := by
  induction ops with
  | nil => intro st h; exact ⟨rfl, h⟩
  | cons op rest ih =>
    intro st h
    have h1 := applyNav_bounds op st h
    have h2 := ih (applyNav op st) (by rw [h1.1]; exact h1.2)
    have hfold : applyNavs (op :: rest) st = applyNavs rest (applyNav op st) := rfl
    rw [hfold]
    exact ⟨h2.1.trans h1.1, by rw [← h1.1]; exact h2.2⟩

/-! ## Claim theorems -/

/-- C3 (counterexample): renderImageGallery in
src/docs/javascripts/entity.js does not use the object form's url field:
for the single object element with url https://img it produces a gallery
image whose src is the whole object, which is not the url string. -/
theorem legacy_gallery_object_src_not_url :
    (collectExternalImagesLegacy "E" [ImageLink.obj "https://img" none none none]).map
        (fun g => g.src) = [ImageLink.obj "https://img" none none none] ∧
    ImageLink.obj "https://img" none none none ≠ ImageLink.url "https://img" :=
  ⟨rfl, by decide⟩

/-- C3 (amended): the renderImageGallery of the documented entity-page
handler (src/unnamed/part_002) accepts every image_links element in both
forms — bare URL string and object — and, provided each object element
has a truthy (nonempty) url, produces exactly one gallery image per
element whose src is the bare string itself or the object's url field. -/
theorem collectExternalImages_both_forms (nm : String) (links : List ImageLink)
    (h : ∀ l ∈ links, imageLinkAccepted l = true) :
    (collectExternalImages nm links).length = links.length ∧
    (collectExternalImages nm links).map (fun g => g.src) = links.map imageLinkUrl := by
  induction links with
  | nil => simp [collectExternalImages]
  | cons l rest ih =>
    have hrest := ih (fun x hx => h x (List.mem_cons_of_mem _ hx))
    cases l with
    | url u =>
      simp [collectExternalImages, imageLinkUrl, hrest.1, hrest.2]
    | obj u a s d =>
      have hu : ¬ u = "" := by
        simpa [imageLinkAccepted, bne_iff_ne] using h _ (List.mem_cons_self _ _)
      simp [collectExternalImages, hu, imageLinkUrl, hrest.1, hrest.2]

/-- C3 (witness): on one bare string and one object with a nonempty url
the part_002 renderer produces exactly the two urls as image sources. -/
theorem collectExternalImages_both_forms_witness :
    (collectExternalImages "E" [ImageLink.url "u1", ImageLink.obj "u2" (some "alt") none none]).map
      (fun g => g.src) = ["u1", "u2"] :=
  (collectExternalImages_both_forms "E"
      [ImageLink.url "u1", ImageLink.obj "u2" (some "alt") none none] (by decide)).2.trans rfl

/-- C9: starting from any in-bounds lightbox index, every sequence of
previous/next steps keeps the index in bounds over an unchanged image
list, so the displayed lookup images[currentImageIndex] always succeeds;
previousImage decrements exactly when the index is positive, nextImage
increments exactly when the index is below images.length - 1, and the
two buttons are disabled exactly at index 0 and index images.length - 1
respectively. -/
theorem lightbox_navigation_in_bounds (st : LightboxState) (ops : List NavOp)
    (h : st.currentImageIndex < st.images.length) :
    (applyNavs ops st).images = st.images ∧
    (applyNavs ops st).currentImageIndex < st.images.length ∧
    ((applyNavs ops st).images.get? (applyNavs ops st).currentImageIndex).isSome = true ∧
    (0 < st.currentImageIndex → (previousImage st).currentImageIndex = st.currentImageIndex - 1) ∧
    (st.currentImageIndex = 0 → previousImage st = st) ∧
    (st.currentImageIndex < st.images.length - 1 →
      (nextImage st).currentImageIndex = st.currentImageIndex + 1) ∧
    (st.images.length - 1 ≤ st.currentImageIndex → nextImage st = st) ∧
    (∃ img, updateLightboxImage st =
      some (img, decide (st.currentImageIndex = 0),
            decide (st.currentImageIndex = st.images.length - 1))) := by
  obtain ⟨himg, hidx⟩ := applyNavs_bounds ops st h
  have hlen : st.images.length ≠ 0 := by omega
  have hflag : ∀ a b : Nat, (a == b) = decide (a = b) := by
    intro a b; by_cases hab : a = b <;> simp [hab]
  refine ⟨himg, hidx, ?_, ?_, ?_, ?_, ?_, ?_⟩
  · rw [himg]
    exact Option.isSome_iff_exists.mpr ⟨_, List.get?_eq_get hidx⟩
  · intro h0; simp [previousImage, h0]
  · intro h0; simp [previousImage, h0]
  · intro h0; simp [nextImage, h0]
  · intro h0; simp [nextImage, Nat.not_lt.mpr h0]
  · refine ⟨st.images.get ⟨st.currentImageIndex, h⟩, ?_⟩
    unfold updateLightboxImage
    rw [if_neg hlen, List.get?_eq_get h]
    rw [Option.map_some', hflag, hflag]

/-- C9 (witness): from index 1 of a three-image lightbox, the step
sequence next, prev, prev stays in bounds. -/
theorem lightbox_navigation_in_bounds_witness :
    (applyNavs [NavOp.next, NavOp.prev, NavOp.prev]
        { currentImageIndex := 1,
          images := [{ src := "s1", alt := "a1" }, { src := "s2", alt := "a2" },
                     { src := "s3", alt := "a3" }] }).currentImageIndex <
      ({ currentImageIndex := 1,
         images := [{ src := "s1", alt := "a1" }, { src := "s2", alt := "a2" },
                    { src := "s3", alt := "a3" }] } : LightboxState).images.length :=
  (lightbox_navigation_in_bounds _ [NavOp.next, NavOp.prev, NavOp.prev] (by decide)).2.1

/-- C10: the entity page shows the error view exactly when the hash id
is empty, the shared-data fetch fails, the id is not a key of the loaded
metadata, or the entity fetch fails; otherwise it shows the content view
and sets the title to the entity name followed by - DataLink; the
loading indicator is hidden in both outcomes. -/
theorem loadAndDisplayEntity_outcome (hash : String)
    (shared : Option (List (String × EntityMeta) × List Relationship))
    (fetchEntity : String → Option Entity) :
    (loadAndDisplayEntity hash shared fetchEntity).loadingHidden = true ∧
    (loadAndDisplayEntity hash shared fetchEntity).errorVisible =
      specErrorCondition hash shared fetchEntity ∧
    (loadAndDisplayEntity hash shared fetchEntity).contentVisible =
      !(specErrorCondition hash shared fetchEntity) ∧
    (loadAndDisplayEntity hash shared fetchEntity).title =
      (if specErrorCondition hash shared fetchEntity then none
       else (fetchEntity (getEntityIdFromHash hash)).map (fun e => e.name ++ " - DataLink")) := by
  cases shared with
  | none =>
    by_cases hid : getEntityIdFromHash hash = "" <;>
      simp [loadAndDisplayEntity, specErrorCondition, hid, showErrorState]
  | some p =>
    obtain ⟨meta, rels⟩ := p
    by_cases hid : getEntityIdFromHash hash = ""
    · simp [loadAndDisplayEntity, specErrorCondition, hid, showErrorState]
    · cases hf : assocFind meta (getEntityIdFromHash hash) with
      | none =>
        simp [loadAndDisplayEntity, specErrorCondition, hid, hf, showErrorState]
      | some mv =>
        cases hfe : fetchEntity (getEntityIdFromHash hash) with
        | none =>
          simp [loadAndDisplayEntity, specErrorCondition, hid, hf, hfe, showErrorState]
        | some ent =>
          simp [loadAndDisplayEntity, specErrorCondition, hid, hf, hfe, showContentState]

/-- C1: a successful compile reaches only artifacts in which every
relationship endpoint resolves in the entities-meta mapping, and on any
validated input containing a relationship whose from or to id does not
resolve in the merged entity mapping, the compiler fails with a
danglingReference error naming the offending relationship index and the
missing id; it never silently drops the relationship. -/
theorem compile_referential_integrity (docs : List SourceDoc) :
    (∀ arts r, compile docs = .ok arts → r ∈ arts.relationships →
        (assocFind arts.entitiesMeta r.«from»).isSome = true ∧
        (assocFind arts.entitiesMeta r.«to»).isSome = true) ∧
    (∀ es rels, validateDocs 0 docs = .ok (es, rels) →
      ∀ rbad ∈ rels,
        (assocFind (mergeEntities es) rbad.«from» = none ∨
         assocFind (mergeEntities es) rbad.«to» = none) →
        ∃ j r badId endp, rels.get? j = some r ∧
          (badId = r.«from» ∨ badId = r.«to») ∧
          assocFind (mergeEntities es) badId = none ∧
          compile docs = .error (.danglingReference j endp badId)) := by
  constructor
  · intro arts r hok hr
    obtain ⟨es, rels, hv, hc, harts⟩ := compile_ok_elim docs arts hok
    subst harts
    have hres := checkRelationships_ok_resolves (mergeEntities es) rels 0 hc r
      (by simpa [buildArtifacts] using hr)
    have hmeta : (buildArtifacts (mergeEntities es) rels).entitiesMeta =
        projectEntitiesMeta (mergeEntities es) := rfl
    rw [hmeta]
    constructor
    · rw [assocFind_projectEntitiesMeta]
      simpa using hres.1
    · rw [assocFind_projectEntitiesMeta]
      simpa using hres.2
  · intro es rels hv rbad hmem hcase
    obtain ⟨e, hce, hc⟩ := compile_dangling_error docs es rels hv ⟨rbad, hmem, hcase⟩
    obtain ⟨j, r, hget, hshape⟩ := checkRelationships_error_spec (mergeEntities es) rels 0 e hc
    rcases hshape with ⟨hn, he⟩ | ⟨hn, he⟩
    · exact ⟨j, r, r.«from», "from", hget, .inl rfl, hn, by rw [hce, he]; simp⟩
    · exact ⟨j, r, r.«to», "to", hget, .inr rfl, hn, by rw [hce, he]; simp⟩

/-- C1 (witness): on the spec section 8 scenario where a relationship
references id c, which does not exist, the compiler fails with a
danglingReference error naming that relationship and the id c. -/
theorem compile_referential_integrity_witness :
    ∃ j r badId endp,
      [({ «from» := "a", «to» := "c", type := "knows", properties := none } : Relationship)].get? j =
        some r ∧
      (badId = r.«from» ∨ badId = r.«to») ∧
      assocFind (mergeEntities [entityA]) badId = none ∧
      compile badRefDocs = .error (.danglingReference j endp badId) :=
  (compile_referential_integrity badRefDocs).2 [entityA]
    [{ «from» := "a", «to» := "c", type := "knows", properties := none }] rfl
    { «from» := "a", «to» := "c", type := "knows", properties := none }
    (List.mem_singleton.mpr rfl) (.inr rfl)

/-- C2 (counterexample): an input whose two source files both declare an
entity with id a does not make the compiler fail: it succeeds, and the
merged metadata maps a to the later declaration (last-write-wins), so a
duplicate id is silently resolved rather than rejected. -/
theorem duplicate_ids_not_rejected :
    rawEntityIds dupDocs = [some "a", some "a"] ∧
    compileSucceeds dupDocs = true ∧
    assocFind (artifactsOf dupDocs).entitiesMeta "a" =
      some { id := "a", name := "A2", type := "person" } :=
  ⟨rfl, rfl, rfl⟩

/-- C2 (amended): entity ids are pairwise unique in the merged mapping
the compiler produces — the keys of entities-meta and of the per-entity
document set are duplicate-free and each meta entry's id equals its key —
but a duplicate id across the input does not fail the build; the later
entity silently overwrites the earlier one. -/
theorem compile_merged_ids_unique (docs : List SourceDoc) (arts : Artifacts)
    (h : compile docs = .ok arts) :
    (arts.entitiesMeta.map Prod.fst).Nodup ∧
    (arts.entityDocs.map Prod.fst).Nodup ∧
    ∀ p ∈ arts.entitiesMeta, p.2.id = p.1 := by
  obtain ⟨es, rels, hv, hc, harts⟩ := compile_ok_elim docs arts h
  subst harts
  have hnd := mergeEntities_keys_nodup es
  have hkeysMeta : (projectEntitiesMeta (mergeEntities es)).map Prod.fst =
      (mergeEntities es).map Prod.fst := by
    simp [projectEntitiesMeta, List.map_map]
  have hkeysDocs : (((mergeEntities es).map (fun p => (p.1, serializeEntity p.2))).map Prod.fst) =
      (mergeEntities es).map Prod.fst := by
    simp [List.map_map]
  refine ⟨?_, ?_, ?_⟩
  · show ((projectEntitiesMeta (mergeEntities es)).map Prod.fst).Nodup
    rw [hkeysMeta]; exact hnd
  · show ((((mergeEntities es).map (fun p => (p.1, serializeEntity p.2))).map Prod.fst)).Nodup
    rw [hkeysDocs]; exact hnd
  · intro p hp
    have hp' := hp
    simp only [buildArtifacts, projectEntitiesMeta, List.mem_map] at hp'
    obtain ⟨q, hq, hpq⟩ := hp'
    have := mergeEntities_key_id es q hq
    rw [← hpq]
    simpa using this.symm

/-- C2 (witness): on the duplicate-id input the successful run still has
duplicate-free entities-meta keys. -/
theorem compile_merged_ids_unique_witness :
    ((artifactsOf dupDocs).entitiesMeta.map Prod.fst).Nodup :=
  (compile_merged_ids_unique dupDocs (artifactsOf dupDocs) rfl).1

/-- C4: every successful compile emits exactly one network node per
merged entity and exactly one edge per relationship: the node count
equals the entities-meta count and the edge count equals the
relationship count. -/
theorem compile_network_cardinality (docs : List SourceDoc) (arts : Artifacts)
    (h : compile docs = .ok arts) :
    arts.network.nodes.length = arts.entitiesMeta.length ∧
    arts.network.edges.length = arts.relationships.length := by
  obtain ⟨es, rels, hv, hc, harts⟩ := compile_ok_elim docs arts h
  subst harts
  simp [buildArtifacts, projectNetwork, projectEntitiesMeta]

/-- C4 (witness): on the spec section 8 demo scenario the node and edge
counts match the entity and relationship counts. -/
theorem compile_network_cardinality_witness :
    (artifactsOf demoDocs).network.nodes.length = (artifactsOf demoDocs).entitiesMeta.length ∧
    (artifactsOf demoDocs).network.edges.length = (artifactsOf demoDocs).relationships.length :=
  compile_network_cardinality demoDocs (artifactsOf demoDocs) rfl

/-- C5: the artifacts are a deterministic pure function of the input:
two successful runs on the same source set produce byte-identical
rendered artifacts, and the written file set is exactly that rendering. -/
theorem compile_idempotent (docs : List SourceDoc) (a1 a2 : Artifacts)
    (h1 : compile docs = .ok a1) (h2 : compile docs = .ok a2) :
    renderedArtifacts a1 = renderedArtifacts a2 ∧
    writtenFiles (compile docs) = renderedArtifacts a1 := by
  have ha : a1 = a2 := by
    rw [h1] at h2
    exact Except.ok.inj h2
  subst ha
  exact ⟨rfl, by rw [h1]; rfl⟩

/-- C5 (witness): running the compiler twice on the demo scenario gives
the same rendered artifact bytes. -/
theorem compile_idempotent_witness :
    renderedArtifacts (artifactsOf demoDocs) = renderedArtifacts (artifactsOf demoDocs) ∧
    writtenFiles (compile demoDocs) = renderedArtifacts (artifactsOf demoDocs) :=
  compile_idempotent demoDocs (artifactsOf demoDocs) (artifactsOf demoDocs) rfl rfl

/-- C6: the per-entity document artifact of a successful compile is
exactly the serialization of the merged entity mapping, and for every
entity e of the merged set the document stored under key e.id is
serializeEntity e and deserializes back to e itself, field-for-field,
including the absence of the optional fields that are absent in e;
deserialization inverts serialization on every entity. -/
theorem compile_entity_document_roundtrip (docs : List SourceDoc) (arts : Artifacts)
    (es : List Entity) (rels : List Relationship)
    (hv : validateDocs 0 docs = .ok (es, rels)) (h : compile docs = .ok arts) :
    arts.entityDocs = (mergeEntities es).map (fun p => (p.1, serializeEntity p.2)) ∧
    (∀ e : Entity, (e.id, e) ∈ mergeEntities es →
        assocFind arts.entityDocs e.id = some (serializeEntity e) ∧
        deserializeEntity (serializeEntity e) = some e) ∧
    (∀ e : Entity, deserializeEntity (serializeEntity e) = some e) := by
  obtain ⟨es', rels', hv', hc, harts⟩ := compile_ok_elim docs arts h
  rw [hv] at hv'
  obtain ⟨hes, hrels⟩ : es = es' ∧ rels = rels' := by
    have hpair := Except.ok.inj hv'
    exact ⟨congrArg Prod.fst hpair, congrArg Prod.snd hpair⟩
  subst hes; subst hrels; subst harts
  refine ⟨rfl, ?_, deserializeEntity_serializeEntity⟩
  intro e hmem
  have hdocs : (buildArtifacts (mergeEntities es) rels).entityDocs =
      (mergeEntities es).map (fun p => (p.1, serializeEntity p.2)) := rfl
  constructor
  · rw [hdocs, assocFind_map_snd serializeEntity (mergeEntities es) e.id,
        assocFind_eq_of_mem_nodup (mergeEntities es) (e.id, e) hmem (mergeEntities_keys_nodup es)]
    rfl
  · exact deserializeEntity_serializeEntity e

/-- C6 (witness): on the demo scenario the document stored under key a
is the serialization of entity a, and it deserializes back to entity a. -/
theorem compile_entity_document_roundtrip_witness :
    assocFind (artifactsOf demoDocs).entityDocs "a" = some (serializeEntity entityA) ∧
    deserializeEntity (serializeEntity entityA) = some entityA :=
  (compile_entity_document_roundtrip demoDocs (artifactsOf demoDocs) [entityA, entityB]
    [relKnows] rfl rfl).2.1 entityA (by decide)

/-- C7 (counterexample): a duplicate entity id is an inconsistency the
compiler does not detect: on an input declaring id x twice the run
succeeds and writes the full artifact set (three indexes plus one entity
document) instead of aborting. -/
theorem duplicate_ids_produce_artifacts :
    rawEntityIds dupDocsOne = [some "x", some "x"] ∧
    compileSucceeds dupDocsOne = true ∧
    (writtenFiles (compile dupDocsOne)).length = 4 :=
  ⟨rfl, rfl, rfl⟩

/-- C7 (amended): the output is all-or-nothing for the inconsistencies
the compiler detects: every failed run writes no file at all and its
error names the offending record (a schema error carries the document
and record index and the missing field, a referential error carries the
relationship index and missing id); every successful run writes the full
artifact set and implies no record was missing a required field.
Duplicate ids are not detected and do not abort. -/
theorem compile_all_or_nothing (docs : List SourceDoc) :
    (∀ e, compile docs = .error e → writtenFiles (compile docs) = []) ∧
    (∀ arts, compile docs = .ok arts →
        writtenFiles (compile docs) = renderedArtifacts arts ∧ hasMissingField docs = false) ∧
    (∀ e, compile docs = .error e →
      (∃ di ri f, e = .missingEntityField di ri f) ∨
      (∃ di ri f, e = .missingRelationshipField di ri f) ∨
      (∃ ri endp mid, e = .danglingReference ri endp mid)) := by
  refine ⟨?_, ?_, ?_⟩
  · intro e he; rw [he]; rfl
  · intro arts h
    obtain ⟨es, rels, hv, hc, harts⟩ := compile_ok_elim docs arts h
    exact ⟨by rw [h]; rfl, validateDocs_ok_no_missing docs 0 es rels hv⟩
  · intro e he
    cases e with
    | missingEntityField a b c => exact .inl ⟨a, b, c, rfl⟩
    | missingRelationshipField a b c => exact .inr (.inl ⟨a, b, c, rfl⟩)
    | danglingReference a b c => exact .inr (.inr ⟨a, b, c, rfl⟩)

/-- C7 (witness): an input whose entity record is missing its required
name fails and writes nothing. -/
theorem compile_all_or_nothing_witness :
    writtenFiles (compile schemaErrDocs) = [] :=
  (compile_all_or_nothing schemaErrDocs).1 (.missingEntityField 0 0 "name") rfl

/-- C8: the entities-meta artifact of a successful compile is exactly
the merged mapping projected to id, name and type: it is keyed by entity
id (each entry's id equals its key), and each entry renders to a JSON
object with exactly the three fields id, name and type — no properties,
links or images. -/
theorem compile_entities_meta_shape (docs : List SourceDoc) (arts : Artifacts)
    (es : List Entity) (rels : List Relationship)
    (hv : validateDocs 0 docs = .ok (es, rels)) (h : compile docs = .ok arts) :
    arts.entitiesMeta = (mergeEntities es).map
      (fun p => (p.1, ({ id := p.2.id, name := p.2.name, type := p.2.type } : EntityMeta))) ∧
    (∀ p ∈ arts.entitiesMeta, p.2.id = p.1) ∧
    metaToJson arts.entitiesMeta = Json.obj (arts.entitiesMeta.map (fun p =>
      (p.1, Json.obj [("id", Json.str p.2.id), ("name", Json.str p.2.name),
                      ("type", Json.str p.2.type)]))) := by
  obtain ⟨es', rels', hv', hc, harts⟩ := compile_ok_elim docs arts h
  rw [hv] at hv'
  obtain ⟨hes, hrels⟩ : es = es' ∧ rels = rels' := by
    have hpair := Except.ok.inj hv'
    exact ⟨congrArg Prod.fst hpair, congrArg Prod.snd hpair⟩
  subst hes; subst hrels; subst harts
  refine ⟨rfl, ?_, rfl⟩
  intro p hp
  simp only [buildArtifacts, projectEntitiesMeta, List.mem_map] at hp
  obtain ⟨q, hq, hpq⟩ := hp
  rw [← hpq]
  simpa using (mergeEntities_key_id es q hq).symm

/-- C8 (witness): on the demo scenario the entities-meta artifact equals
the id-name-type projection of the merged mapping. -/
theorem compile_entities_meta_shape_witness :
    (artifactsOf demoDocs).entitiesMeta = (mergeEntities [entityA, entityB]).map
      (fun p => (p.1, ({ id := p.2.id, name := p.2.name, type := p.2.type } : EntityMeta))) :=
  (compile_entities_meta_shape demoDocs (artifactsOf demoDocs) [entityA, entityB] [relKnows]
    rfl rfl).1

end DataLink
